import Mathlib

set_option autoImplicit false

/-!
Verification development for the gossip peer handling of
`bedrock-ledger-continuity` (`lib/worker/GossipPeer.js`).

The `GossipPeer` class tracks a single peer record and updates it on the
outcome of each gossip pull: `fail` handles failed pulls (backoff, the
consecutive-failure reputation formula, fatal deletion), `success` handles
successful pulls (reputation reward, idle accounting and its penalty, the
peer-capacity check) and `delete` removes the peer record from the store.

The embedding below is shallow: each method becomes a pure function from
the peer record (plus the ambient inputs the method reads: the
backoff configuration, the current witness set, the consensus block
height, the stored zero-reputation peer count, and the clock) to either a
deletion or an updated record.  JavaScript numbers holding timestamps,
reputations and block heights are modelled as `Int` (they are integral in
every reachable state); `Math.floor(a / b)` on integers is `Int.fdiv` and
`Math.ceil(a / b)` is `jsCeilDiv` below.  A thrown `TypeError` (reading a
field of `undefined`) is modelled by an `Option` result.
-/

/-- JavaScript `Math.ceil(a / b)` for integer `a`, `b` with `b > 0`:
the negated floor division of the negation. -/
def jsCeilDiv (a b : Int) : Int := -((-a).fdiv b)

/-- The `config['ledger-consensus-continuity'].gossip.backoff` values read
by `fail` and `success`.  All are durations in milliseconds. -/
structure BackoffConfig where
  maxFailure : Int
  minFailure : Int
  maxFailureGracePeriod : Int
  maxIdle : Int
  minIdle : Int
  maxIdleGracePeriod : Int
deriving DecidableEq, Repr

/-- A gossip cursor; `fail` and `success` only ever read its
`requiredBlockHeight` field. -/
structure Cursor where
  requiredBlockHeight : Int
deriving DecidableEq, Repr

/-- The `status.firstFailure` snapshot stored on the first of a run of
consecutive failures. -/
structure FirstFailure where
  reputation : Int
  time : Int
deriving DecidableEq, Repr

/-- The `status.idle` record stored while a peer keeps succeeding without
sending merge events. -/
structure IdleInfo where
  time : Int
  localBlockHeight : Int
deriving DecidableEq, Repr

/-- The `status` sub-object of a stored peer record.  `cursor` is `none`
when the stored cursor is `null`/absent; `firstFailure` and `idle` are
`none` when deleted from the object. -/
structure PeerStatus where
  backoffUntil : Int
  lastPullAt : Int
  lastPushAt : Int
  lastPullResult : String
  cursor : Option Cursor
  requiredBlockHeight : Int
  consecutiveFailures : Nat
  firstFailure : Option FirstFailure
  idle : Option IdleInfo
deriving DecidableEq, Repr

/-- A stored peer record (`_peer` in the source). -/
structure Peer where
  id : String
  reputation : Int
  recommended : Bool
  status : PeerStatus
  sequence : Nat
deriving DecidableEq, Repr

/-- The outcome of a `fail` or `success` call on the stored record: either
the record was deleted from the peer store, or it was updated (committed
via `_peers.update`) to the given new record. -/
inductive GossipResult where
  | deleted : GossipResult
  | updated : Peer → GossipResult
deriving DecidableEq, Repr

namespace GossipPeer

/-- The tail of `fail` after the reputation update survived the
negative-reputation check: compute the next backoff, run the
cursor-handling block, bump `sequence` and commit.  `cursor` is `none`
when the `cursor` argument was omitted (`undefined` in JavaScript),
`some none` when it was supplied but falsy (`null`), and `some (some c)`
when a truthy cursor object was supplied.  The source line
`status.cursor = status.cursor` is kept as the (effect-free)
self-assignment it is. -/
def failCommit (cfg : BackoffConfig) (now : Int) (cursor : Option (Option Cursor))
    (peer : Peer) (status : PeerStatus) (reputation : Int) : GossipResult :=
  let status := { status with
    backoffUntil :=
      now + min cfg.maxFailure ((status.consecutiveFailures : Int) * cfg.minFailure) }
  let status :=
    match cursor with
    | none => status
    | some c =>
      let status := { status with cursor := status.cursor }
      match c with
      | some cur => { status with requiredBlockHeight := cur.requiredBlockHeight }
      | none => status
  .updated { peer with reputation := reputation, status := status,
                       sequence := peer.sequence + 1 }

/-- The record committed by `failCommit`, written as one explicit record:
the normal form used to reason about the fields of a peer retained by
`fail`. -/
def failCommitRecord (cfg : BackoffConfig) (now : Int)
    (cursor : Option (Option Cursor)) (peer : Peer) (status : PeerStatus)
    (reputation : Int) : Peer :=
  { peer with
    reputation := reputation,
    status := { status with
      backoffUntil :=
        now + min cfg.maxFailure ((status.consecutiveFailures : Int) * cfg.minFailure),
      requiredBlockHeight :=
        match cursor with
        | some (some c) => c.requiredBlockHeight
        | _ => status.requiredBlockHeight },
    sequence := peer.sequence + 1 }

/-- The status/reputation update block of `fail` (source lines 75-106):
increment `consecutiveFailures`, stamp `lastPullAt`/`lastPullResult`,
drop `idle`, then either snapshot `firstFailure` and decrement the
reputation (first consecutive failure) or recompute it from the snapshot.
Returns the computed reputation and updated status, or `none` when the
source would throw (reading `status.firstFailure.time` while
`firstFailure` is unset). -/
def failRepStep (cfg : BackoffConfig) (now : Int) (error : String)
    (peer : Peer) : Option (Int × PeerStatus) :=
  let status1 : PeerStatus := { peer.status with
    consecutiveFailures := peer.status.consecutiveFailures + 1,
    lastPullAt := now,
    lastPullResult := error,
    idle := none }
  if status1.consecutiveFailures = 1 then
    some (peer.reputation - 1,
      { status1 with
        firstFailure := some ⟨peer.reputation, status1.lastPullAt⟩ })
  else
    match status1.firstFailure with
    | none => none
    | some ff =>
      let totalFailTime := now - ff.time
      let points := totalFailTime.fdiv cfg.maxFailureGracePeriod * 100
      some (min (ff.reputation - 1) (ff.reputation - points), status1)

/-- Shallow embedding of `GossipPeer.prototype.fail`.  `witnesses` is the
current witness set (`consensusState.witnesses`); `now` is the value of
`Date.now()` during the call; `error` is the string form of the error.
The result is `none` exactly when the source would throw. -/
def fail (cfg : BackoffConfig) (witnesses : List String) (now : Int)
    (error : String) (cursor : Option (Option Cursor)) (fatal : Bool)
    (peer : Peer) : Option GossipResult :=
  if fatal then some .deleted
  else
    match failRepStep cfg now error peer with
    | none => none
    | some (rep, status2) =>
      if rep < 0 then
        if witnesses.contains peer.id then
          some (failCommit cfg now cursor peer status2 0)
        else
          some .deleted
      else
        some (failCommit cfg now cursor peer status2 rep)

/-- The unconditional status updates of `success` (source lines 167-178):
reset the backoff, stamp the pull, store the supplied cursor (and, when
it is truthy, its `requiredBlockHeight`), zero `consecutiveFailures` and
drop `firstFailure`. -/
def successStatus1 (now : Int) (cursor : Option Cursor)
    (status : PeerStatus) : PeerStatus :=
  { status with
    backoffUntil := now,
    lastPullAt := now,
    lastPullResult := "success",
    cursor := cursor,
    requiredBlockHeight :=
      match cursor with
      | some c => c.requiredBlockHeight
      | none => status.requiredBlockHeight,
    consecutiveFailures := 0,
    firstFailure := none }

/-- Shallow embedding of `GossipPeer.prototype.success`.  `blockHeight` is
`consensusState.blockHeight`; `peerCount` is the result of the external
query `ledgerNode.peers.count({maxReputation: 0})` at the moment of the
capacity check; `cursor` is `none` for `null` (its default). -/
def success (cfg : BackoffConfig) (witnesses : List String) (blockHeight : Int)
    (peerCount : Nat) (now : Int) (mergeEventsReceived : Bool)
    (cursor : Option Cursor) (peer : Peer) : GossipResult :=
  let isWitness := witnesses.contains peer.id
  if isWitness = false ∧ peer.reputation = 0 ∧ 100 ≤ peerCount then
    .deleted
  else
    let status1 : PeerStatus := successStatus1 now cursor peer.status
    if mergeEventsReceived then
      .updated { peer with
        reputation := min 100 (peer.reputation + 1),
        status := { status1 with idle := none },
        sequence := peer.sequence + 1 }
    else
      match status1.idle with
      | none =>
        .updated { peer with
          status := { status1 with idle := some ⟨now, blockHeight⟩ },
          sequence := peer.sequence + 1 }
      | some idle =>
        if idle.localBlockHeight = blockHeight then
          .updated { peer with
            status := { status1 with idle := some { idle with time := now } },
            sequence := peer.sequence + 1 }
        else
          let timePerPoint := jsCeilDiv cfg.maxIdleGracePeriod 100
          let totalIdleTime := now - idle.time
          let points := totalIdleTime.fdiv timePerPoint
          let rep := peer.reputation - points
          let status2 := { status1 with
            idle := some { time := idle.time + points * timePerPoint,
                           localBlockHeight := blockHeight },
            backoffUntil :=
              status1.backoffUntil + min (cfg.minIdle * max 1 points) cfg.maxIdle }
          if rep < 0 then
            if isWitness then
              .updated { peer with reputation := 0, status := status2,
                                   sequence := peer.sequence + 1 }
            else
              .deleted
          else
            .updated { peer with reputation := rep, status := status2,
                                 sequence := peer.sequence + 1 }

/-- The per-instance deletion state of a `GossipPeer`: the `_deleted` flag
together with the number of `_peers.delete` calls the instance has issued
to the peer store. -/
structure DeleteState where
  deleted : Bool
  storeDeleteCalls : Nat
deriving DecidableEq, Repr

/-- Shallow embedding of `GossipPeer.prototype.delete`: a no-op once
`_deleted` is set, otherwise one peer-store deletion and the flag. -/
def delete (s : DeleteState) : DeleteState :=
  if s.deleted then s
  else { deleted := true, storeDeleteCalls := s.storeDeleteCalls + 1 }

/-- Shallow embedding of `GossipPeer.prototype.isDeleted`. -/
def isDeleted (s : DeleteState) : Bool := s.deleted

end GossipPeer

/-- The number of stored peers matched by the query
`{maxReputation: 0}`, i.e. with reputation at most `0`, among the given
reputations. -/
def zeroRepCount (reps : List Int) : Nat :=
  (reps.filter (fun r => decide (r ≤ 0))).length

/-- The value of `count({maxReputation: 0})` over the whole peer store
after a `success` call handled for `peer`, where `others` lists the
reputations of the other stored peers (untouched by the call).  The
`peerCount` passed to the capacity check inside `success` is the pre-call
count over the whole store, query-time semantics of the source. -/
def successCommitZeroCount (cfg : BackoffConfig) (witnesses : List String)
    (blockHeight : Int) (now : Int) (mergeEventsReceived : Bool)
    (cursor : Option Cursor) (others : List Int) (peer : Peer) : Nat :=
  let peerCount := zeroRepCount (peer.reputation :: others)
  match GossipPeer.success cfg witnesses blockHeight peerCount now
      mergeEventsReceived cursor peer with
  | .deleted => zeroRepCount others
  | .updated p => zeroRepCount (p.reputation :: others)

/-- A sample backoff configuration used to instantiate theorems:
`maxFailure` 100000ms, `minFailure` 10000ms, `maxFailureGracePeriod`
1000000ms, `maxIdle` 50000ms, `minIdle` 5000ms, `maxIdleGracePeriod`
100000ms. -/
def cfgA : BackoffConfig := ⟨100000, 10000, 1000000, 50000, 5000, 100000⟩

/-- A sample stored peer with no failure or idle history. -/
def peerFresh : Peer :=
  ⟨"p1", 50, false, ⟨0, 0, 0, "", none, 0, 0, none, none⟩, 0⟩

/-- A sample stored peer with an idle record taken at time 1000 and local
block height 2. -/
def peerIdle : Peer :=
  ⟨"p1", 50, false, ⟨0, 0, 0, "", none, 0, 0, none, some ⟨1000, 2⟩⟩, 0⟩

/-- A sample stored peer with two consecutive failures, the first at time
1000 with reputation 50. -/
def peerFailing : Peer :=
  ⟨"p1", 50, false, ⟨0, 0, 0, "", none, 0, 2, some ⟨50, 1000⟩, none⟩, 0⟩

/-! ## Helper lemmas -/

theorem fdiv_nonpos_of_nonpos {a b : Int} (ha : a ≤ 0) (hb : 0 ≤ b) :
    a.fdiv b ≤ 0 := by
  rcases lt_or_eq_of_le ha with h | h
  · rcases lt_or_eq_of_le hb with h' | h'
    · exact le_of_lt (Int.fdiv_neg' h h')
    · rw [← h']
      simp
  · subst h
    simp

theorem jsCeilDiv_nonneg {a b : Int} (ha : 0 ≤ a) (hb : 0 ≤ b) :
    0 ≤ jsCeilDiv a b := by
  unfold jsCeilDiv
  have : (-a).fdiv b ≤ 0 := fdiv_nonpos_of_nonpos (by omega) hb
  omega

theorem failCommit_eq (cfg : BackoffConfig) (now : Int)
    (cursor : Option (Option Cursor)) (peer : Peer) (status : PeerStatus)
    (reputation : Int) :
    GossipPeer.failCommit cfg now cursor peer status reputation =
      .updated (GossipPeer.failCommitRecord cfg now cursor peer status reputation) := by
  rcases cursor with _ | (_ | c) <;> rfl

theorem failRepStep_first (cfg : BackoffConfig) (now : Int) (error : String)
    (peer : Peer) (h : peer.status.consecutiveFailures = 0) :
    GossipPeer.failRepStep cfg now error peer =
      some (peer.reputation - 1,
        { peer.status with
          consecutiveFailures := 1,
          lastPullAt := now,
          lastPullResult := error,
          idle := none,
          firstFailure := some ⟨peer.reputation, now⟩ }) := by
  simp [GossipPeer.failRepStep, h]

theorem failRepStep_subsequent (cfg : BackoffConfig) (now : Int)
    (error : String) (peer : Peer) (ff : FirstFailure)
    (h : peer.status.consecutiveFailures ≠ 0)
    (hff : peer.status.firstFailure = some ff) :
    GossipPeer.failRepStep cfg now error peer =
      some (min (ff.reputation - 1)
          (ff.reputation - (now - ff.time).fdiv cfg.maxFailureGracePeriod * 100),
        { peer.status with
          consecutiveFailures := peer.status.consecutiveFailures + 1,
          lastPullAt := now,
          lastPullResult := error,
          idle := none }) := by
  unfold GossipPeer.failRepStep
  rw [if_neg (by simpa using h)]
  simp [hff]

theorem failRepStep_throw (cfg : BackoffConfig) (now : Int) (error : String)
    (peer : Peer) (h : peer.status.consecutiveFailures ≠ 0)
    (hff : peer.status.firstFailure = none) :
    GossipPeer.failRepStep cfg now error peer = none := by
  unfold GossipPeer.failRepStep
  rw [if_neg (by simpa using h)]
  simp [hff]

theorem failRepStep_status {cfg : BackoffConfig} {now : Int} {error : String}
    {peer : Peer} {rep : Int} {status2 : PeerStatus}
    (h : GossipPeer.failRepStep cfg now error peer = some (rep, status2)) :
    status2.consecutiveFailures = peer.status.consecutiveFailures + 1 ∧
    status2.cursor = peer.status.cursor ∧
    status2.requiredBlockHeight = peer.status.requiredBlockHeight ∧
    status2.lastPullAt = now ∧
    status2.lastPullResult = error ∧
    status2.idle = none := by
  simp only [GossipPeer.failRepStep] at h
  split at h
  · rw [Option.some.injEq, Prod.mk.injEq] at h
    obtain ⟨h1, h2⟩ := h
    subst h2
    exact ⟨rfl, rfl, rfl, rfl, rfl, rfl⟩
  · split at h
    · exact absurd h (by simp)
    · rw [Option.some.injEq, Prod.mk.injEq] at h
      obtain ⟨h1, h2⟩ := h
      subst h2
      exact ⟨rfl, rfl, rfl, rfl, rfl, rfl⟩

theorem fail_nonfatal (cfg : BackoffConfig) (witnesses : List String)
    (now : Int) (error : String) (cursor : Option (Option Cursor))
    (peer : Peer) :
    GossipPeer.fail cfg witnesses now error cursor false peer =
      match GossipPeer.failRepStep cfg now error peer with
      | none => none
      | some (rep, status2) =>
        if rep < 0 then
          if witnesses.contains peer.id then
            some (GossipPeer.failCommit cfg now cursor peer status2 0)
          else
            some .deleted
        else
          some (GossipPeer.failCommit cfg now cursor peer status2 rep) := rfl

/-- Every retained result of a non-fatal `fail` is a `failCommitRecord`
built from the `failRepStep` outcome, with the reputation clamped to 0 in
the witness case. -/
theorem fail_updated_cases {cfg : BackoffConfig} {witnesses : List String}
    {now : Int} {error : String} {cursor : Option (Option Cursor)}
    {peer p : Peer}
    (hres : GossipPeer.fail cfg witnesses now error cursor false peer =
      some (.updated p)) :
    ∃ rep status2,
      GossipPeer.failRepStep cfg now error peer = some (rep, status2) ∧
      p = GossipPeer.failCommitRecord cfg now cursor peer status2
        (if rep < 0 then 0 else rep) ∧
      (rep < 0 → witnesses.contains peer.id = true) := by
  rw [fail_nonfatal] at hres
  rcases hstep : GossipPeer.failRepStep cfg now error peer with _ | ⟨rep, status2⟩
  · rw [hstep] at hres
    exact absurd hres (by simp)
  · rw [hstep] at hres
    dsimp only at hres
    refine ⟨rep, status2, rfl, ?_, ?_⟩
    · by_cases hneg : rep < 0
      · rw [if_pos hneg] at hres ⊢
        by_cases hw : witnesses.contains peer.id
        · rw [if_pos hw, failCommit_eq] at hres
          exact (GossipResult.updated.inj (Option.some.inj hres)).symm
        · rw [if_neg hw] at hres
          exact absurd (Option.some.inj hres) (by simp)
      · rw [if_neg hneg] at hres ⊢
        rw [failCommit_eq] at hres
        exact (GossipResult.updated.inj (Option.some.inj hres)).symm
    · intro hneg
      rw [if_pos hneg] at hres
      by_cases hw : witnesses.contains peer.id
      · exact hw
      · rw [if_neg hw] at hres
        exact absurd (Option.some.inj hres) (by simp)

theorem success_guard_deletes (cfg : BackoffConfig) (witnesses : List String)
    (blockHeight : Int) (peerCount : Nat) (now : Int)
    (mergeEventsReceived : Bool) (cursor : Option Cursor) (peer : Peer)
    (hw : witnesses.contains peer.id = false) (h0 : peer.reputation = 0)
    (hc : 100 ≤ peerCount) :
    GossipPeer.success cfg witnesses blockHeight peerCount now
      mergeEventsReceived cursor peer = .deleted := by
  unfold GossipPeer.success
  rw [if_pos ⟨hw, h0, hc⟩]

theorem success_merge (cfg : BackoffConfig) (witnesses : List String)
    (blockHeight : Int) (peerCount : Nat) (now : Int) (cursor : Option Cursor)
    (peer : Peer)
    (hguard : ¬(witnesses.contains peer.id = false ∧ peer.reputation = 0 ∧
      100 ≤ peerCount)) :
    GossipPeer.success cfg witnesses blockHeight peerCount now true cursor peer =
      .updated { peer with
        reputation := min 100 (peer.reputation + 1),
        status := { GossipPeer.successStatus1 now cursor peer.status with idle := none },
        sequence := peer.sequence + 1 } := by
  unfold GossipPeer.success
  rw [if_neg hguard]
  rfl

theorem success_idle_start (cfg : BackoffConfig) (witnesses : List String)
    (blockHeight : Int) (peerCount : Nat) (now : Int) (cursor : Option Cursor)
    (peer : Peer)
    (hguard : ¬(witnesses.contains peer.id = false ∧ peer.reputation = 0 ∧
      100 ≤ peerCount))
    (hidle : peer.status.idle = none) :
    GossipPeer.success cfg witnesses blockHeight peerCount now false cursor peer =
      .updated { peer with
        status := { GossipPeer.successStatus1 now cursor peer.status with
          idle := some ⟨now, blockHeight⟩ },
        sequence := peer.sequence + 1 } := by
  unfold GossipPeer.success
  rw [if_neg hguard]
  have : (GossipPeer.successStatus1 now cursor peer.status).idle = none := hidle
  dsimp only
  rw [this]
  rfl

theorem success_idle_everyone (cfg : BackoffConfig) (witnesses : List String)
    (blockHeight : Int) (peerCount : Nat) (now : Int) (cursor : Option Cursor)
    (peer : Peer) (i : IdleInfo)
    (hguard : ¬(witnesses.contains peer.id = false ∧ peer.reputation = 0 ∧
      100 ≤ peerCount))
    (hidle : peer.status.idle = some i)
    (hbh : i.localBlockHeight = blockHeight) :
    GossipPeer.success cfg witnesses blockHeight peerCount now false cursor peer =
      .updated { peer with
        status := { GossipPeer.successStatus1 now cursor peer.status with
          idle := some ⟨now, i.localBlockHeight⟩ },
        sequence := peer.sequence + 1 } := by
  unfold GossipPeer.success
  rw [if_neg hguard]
  have h : (GossipPeer.successStatus1 now cursor peer.status).idle = some i := hidle
  dsimp only
  simp only [h]
  rw [if_pos hbh]
  rfl

theorem success_idle_penalty (cfg : BackoffConfig) (witnesses : List String)
    (blockHeight : Int) (peerCount : Nat) (now : Int) (cursor : Option Cursor)
    (peer : Peer) (i : IdleInfo)
    (hguard : ¬(witnesses.contains peer.id = false ∧ peer.reputation = 0 ∧
      100 ≤ peerCount))
    (hidle : peer.status.idle = some i)
    (hbh : i.localBlockHeight ≠ blockHeight) :
    GossipPeer.success cfg witnesses blockHeight peerCount now false cursor peer =
      (let timePerPoint := jsCeilDiv cfg.maxIdleGracePeriod 100
       let points := (now - i.time).fdiv timePerPoint
       let rep := peer.reputation - points
       let status2 := { GossipPeer.successStatus1 now cursor peer.status with
         idle := some ⟨i.time + points * timePerPoint, blockHeight⟩,
         backoffUntil := now + min (cfg.minIdle * max 1 points) cfg.maxIdle }
       if rep < 0 then
         if witnesses.contains peer.id then
           .updated { peer with reputation := 0, status := status2,
                                sequence := peer.sequence + 1 }
         else
           .deleted
       else
         .updated { peer with reputation := rep, status := status2,
                              sequence := peer.sequence + 1 }) := by
  unfold GossipPeer.success
  rw [if_neg hguard]
  have h : (GossipPeer.successStatus1 now cursor peer.status).idle = some i := hidle
  dsimp only
  simp only [h]
  rw [if_neg hbh]
  rfl

theorem success_updated_no_guard {cfg : BackoffConfig} {witnesses : List String}
    {blockHeight : Int} {peerCount : Nat} {now : Int}
    {mergeEventsReceived : Bool} {cursor : Option Cursor} {peer q : Peer}
    (hres : GossipPeer.success cfg witnesses blockHeight peerCount now
      mergeEventsReceived cursor peer = .updated q) :
    ¬(witnesses.contains peer.id = false ∧ peer.reputation = 0 ∧
      100 ≤ peerCount) := by
  intro hguard
  rw [success_guard_deletes cfg witnesses blockHeight peerCount now
    mergeEventsReceived cursor peer hguard.1 hguard.2.1 hguard.2.2] at hres
  exact absurd hres (by simp)

/-! ## Claims -/

/-- C7: For every call to `fail` with `fatal = true`, the peer is deleted
immediately and the handler returns: the result is bare deletion,
carrying no updated record, so no reputation, consecutiveFailures,
backoff, or cursor update is performed on the peer record. -/
theorem c7_fatal_failure_deletes_immediately (cfg : BackoffConfig)
    (witnesses : List String) (now : Int) (error : String)
    (cursor : Option (Option Cursor)) (peer : Peer) :
    GossipPeer.fail cfg witnesses now error cursor true peer =
      some .deleted := rfl

/-- C10: `delete` is idempotent on a `GossipPeer` instance: the first call
performs the underlying peer-store deletion and sets the deleted flag, and
every subsequent call returns without contacting the peer store again,
with `isDeleted` returning true from the first call onward. -/
theorem c10_delete_idempotent (s : GossipPeer.DeleteState)
    (h : s.deleted = false) :
    (GossipPeer.delete s).deleted = true ∧
    (GossipPeer.delete s).storeDeleteCalls = s.storeDeleteCalls + 1 ∧
    GossipPeer.delete (GossipPeer.delete s) = GossipPeer.delete s ∧
    GossipPeer.isDeleted (GossipPeer.delete s) = true := by
  simp [GossipPeer.delete, GossipPeer.isDeleted, h]

/-- Witness for C10 at the freshly constructed instance. -/
theorem c10_delete_idempotent_witness :
    (GossipPeer.delete ⟨false, 0⟩).deleted = true ∧
    (GossipPeer.delete ⟨false, 0⟩).storeDeleteCalls = 0 + 1 ∧
    GossipPeer.delete (GossipPeer.delete ⟨false, 0⟩) =
      GossipPeer.delete ⟨false, 0⟩ ∧
    GossipPeer.isDeleted (GossipPeer.delete ⟨false, 0⟩) = true :=
  c10_delete_idempotent ⟨false, 0⟩ rfl

/-- C9: after every non-fatal `fail` that retains the peer, the committed
`backoffUntil` is `now + min(maxFailure, consecutiveFailures * minFailure)`
with `consecutiveFailures` the post-increment value. -/
theorem c9_fail_backoff (cfg : BackoffConfig) (witnesses : List String)
    (now : Int) (error : String) (cursor : Option (Option Cursor))
    (peer p : Peer)
    (hres : GossipPeer.fail cfg witnesses now error cursor false peer =
      some (.updated p)) :
    p.status.consecutiveFailures = peer.status.consecutiveFailures + 1 ∧
    p.status.backoffUntil =
      now + min cfg.maxFailure
        (((peer.status.consecutiveFailures : Int) + 1) * cfg.minFailure) := by
  obtain ⟨rep, status2, hstep, hp, -⟩ := fail_updated_cases hres
  obtain ⟨hcf, -, -, -, -, -⟩ := failRepStep_status hstep
  subst hp
  refine ⟨hcf, ?_⟩
  have hcast : ((status2.consecutiveFailures : Int)) =
      (peer.status.consecutiveFailures : Int) + 1 := by
    rw [hcf]
    push_cast
    ring
  show now + min cfg.maxFailure
      ((status2.consecutiveFailures : Int) * cfg.minFailure) = _
  rw [hcast]

/-- Witness for C9: a first failure of a fresh peer at time 5000. -/
theorem c9_fail_backoff_witness :
    (⟨"p1", 49, false, ⟨15000, 5000, 0, "err", none, 0, 1,
        some ⟨50, 5000⟩, none⟩, 1⟩ : Peer).status.consecutiveFailures =
      peerFresh.status.consecutiveFailures + 1 ∧
    (⟨"p1", 49, false, ⟨15000, 5000, 0, "err", none, 0, 1,
        some ⟨50, 5000⟩, none⟩, 1⟩ : Peer).status.backoffUntil =
      5000 + min cfgA.maxFailure
        (((peerFresh.status.consecutiveFailures : Int) + 1) * cfgA.minFailure) :=
  c9_fail_backoff cfgA [] 5000 "err" none peerFresh
    ⟨"p1", 49, false, ⟨15000, 5000, 0, "err", none, 0, 1,
      some ⟨50, 5000⟩, none⟩, 1⟩ (by decide)

/-- C6: when `fail` is called with a cursor argument supplied, the stored
`status.cursor` keeps its prior value (the source's self-assignment
`status.cursor = status.cursor` has no effect), while
`status.requiredBlockHeight` is updated to the supplied cursor's
`requiredBlockHeight` exactly when that cursor is truthy. -/
theorem c6_fail_cursor_self_assignment (cfg : BackoffConfig)
    (witnesses : List String) (now : Int) (error : String)
    (c : Option Cursor) (peer p : Peer)
    (hres : GossipPeer.fail cfg witnesses now error (some c) false peer =
      some (.updated p)) :
    p.status.cursor = peer.status.cursor ∧
    p.status.requiredBlockHeight =
      (match c with
       | some cur => cur.requiredBlockHeight
       | none => peer.status.requiredBlockHeight) := by
  obtain ⟨rep, status2, hstep, hp, -⟩ := fail_updated_cases hres
  obtain ⟨-, hcur, hreq, -, -, -⟩ := failRepStep_status hstep
  subst hp
  constructor
  · exact hcur
  · rcases c with _ | cur
    · exact hreq
    · rfl

/-- Witness for C6: a supplied truthy cursor with requiredBlockHeight 7,
and a supplied null cursor. -/
theorem c6_fail_cursor_self_assignment_witness :
    ((⟨"p1", 49, false, ⟨531000, 501000, 0, "err", none, 7, 3,
        some ⟨50, 1000⟩, none⟩, 1⟩ : Peer).status.cursor =
      peerFailing.status.cursor ∧
     (⟨"p1", 49, false, ⟨531000, 501000, 0, "err", none, 7, 3,
        some ⟨50, 1000⟩, none⟩, 1⟩ : Peer).status.requiredBlockHeight = 7) ∧
    ((⟨"p1", 49, false, ⟨531000, 501000, 0, "err", none, 0, 3,
        some ⟨50, 1000⟩, none⟩, 1⟩ : Peer).status.cursor =
      peerFailing.status.cursor ∧
     (⟨"p1", 49, false, ⟨531000, 501000, 0, "err", none, 0, 3,
        some ⟨50, 1000⟩, none⟩, 1⟩ : Peer).status.requiredBlockHeight =
      peerFailing.status.requiredBlockHeight) :=
  ⟨c6_fail_cursor_self_assignment cfgA [] 501000 "err" (some ⟨7⟩) peerFailing
      ⟨"p1", 49, false, ⟨531000, 501000, 0, "err", none, 7, 3,
        some ⟨50, 1000⟩, none⟩, 1⟩ (by decide),
   c6_fail_cursor_self_assignment cfgA [] 501000 "err" none peerFailing
      ⟨"p1", 49, false, ⟨531000, 501000, 0, "err", none, 0, 3,
        some ⟨50, 1000⟩, none⟩, 1⟩ (by decide)⟩

/-- C1: for every non-fatal `fail` that retains the peer,
`consecutiveFailures` is incremented; if it thereby becomes 1, the peer's
current reputation and the failure time are snapshotted as `firstFailure`
and (when no clamp interferes) the reputation decreases by exactly 1; on
every subsequent consecutive failure the reputation becomes
`min(start - 1, start - floor(elapsed / maxFailureGracePeriod) * 100)`
where `start` is the snapshotted reputation and `elapsed` the time since
the first failure. -/
theorem c1_fail_reputation_formula (cfg : BackoffConfig)
    (witnesses : List String) (now : Int) (error : String)
    (cursor : Option (Option Cursor)) (peer p : Peer)
    (hres : GossipPeer.fail cfg witnesses now error cursor false peer =
      some (.updated p)) :
    p.status.consecutiveFailures = peer.status.consecutiveFailures + 1 ∧
    (peer.status.consecutiveFailures = 0 →
      p.status.firstFailure = some ⟨peer.reputation, now⟩ ∧
      (1 ≤ peer.reputation → p.reputation = peer.reputation - 1)) ∧
    (∀ ff : FirstFailure, peer.status.consecutiveFailures ≠ 0 →
      peer.status.firstFailure = some ff →
      0 ≤ min (ff.reputation - 1)
        (ff.reputation - (now - ff.time).fdiv cfg.maxFailureGracePeriod * 100) →
      p.reputation = min (ff.reputation - 1)
        (ff.reputation - (now - ff.time).fdiv cfg.maxFailureGracePeriod * 100)) := by
  obtain ⟨rep, status2, hstep, hp, -⟩ := fail_updated_cases hres
  obtain ⟨hcf, -, -, -, -, -⟩ := failRepStep_status hstep
  subst hp
  refine ⟨hcf, ?_, ?_⟩
  · intro h0
    rw [failRepStep_first cfg now error peer h0] at hstep
    rw [Option.some.injEq, Prod.mk.injEq] at hstep
    obtain ⟨hrep, hst⟩ := hstep
    subst hst
    constructor
    · rfl
    · intro h1
      have hpos : ¬ rep < 0 := by omega
      show (if rep < 0 then 0 else rep) = peer.reputation - 1
      rw [if_neg hpos]
      omega
  · intro ff hne hff h0
    rw [failRepStep_subsequent cfg now error peer ff hne hff] at hstep
    rw [Option.some.injEq, Prod.mk.injEq] at hstep
    obtain ⟨hrep, hst⟩ := hstep
    have hpos : ¬ rep < 0 := not_lt.mpr (hrep ▸ h0)
    show (if rep < 0 then 0 else rep) = _
    rw [if_neg hpos]
    exact hrep.symm

/-- Witness for C1: a first failure of a fresh peer at time 5000, and the
third consecutive failure of a peer first seen failing at time 1000. -/
theorem c1_fail_reputation_formula_witness :
    ((⟨"p1", 49, false, ⟨15000, 5000, 0, "err", none, 0, 1,
        some ⟨50, 5000⟩, none⟩, 1⟩ : Peer).status.firstFailure =
        some ⟨peerFresh.reputation, 5000⟩ ∧
     (⟨"p1", 49, false, ⟨15000, 5000, 0, "err", none, 0, 1,
        some ⟨50, 5000⟩, none⟩, 1⟩ : Peer).reputation =
        peerFresh.reputation - 1) ∧
    (⟨"p1", 49, false, ⟨531000, 501000, 0, "err", none, 0, 3,
        some ⟨50, 1000⟩, none⟩, 1⟩ : Peer).reputation =
      min ((50 : Int) - 1)
        (50 - ((501000 : Int) - 1000).fdiv cfgA.maxFailureGracePeriod * 100) := by
  have h1 := c1_fail_reputation_formula cfgA [] 5000 "err" none peerFresh
    ⟨"p1", 49, false, ⟨15000, 5000, 0, "err", none, 0, 1,
      some ⟨50, 5000⟩, none⟩, 1⟩ (by decide)
  have h2 := c1_fail_reputation_formula cfgA [] 501000 "err" none peerFailing
    ⟨"p1", 49, false, ⟨531000, 501000, 0, "err", none, 0, 3,
      some ⟨50, 1000⟩, none⟩, 1⟩ (by decide)
  exact ⟨⟨(h1.2.1 rfl).1, (h1.2.1 rfl).2 (by decide)⟩,
    h2.2.2 ⟨50, 1000⟩ (by decide) rfl (by decide)⟩

/-- C2: in `success` with no merge events received, the idle penalty
applies exactly when an idle record exists and the local block height has
changed since it was recorded; then with
`timePerPoint = ceil(maxIdleGracePeriod / 100)` and
`points = floor((now - idle.time) / timePerPoint)`, `points` is
subtracted from the reputation (stated here below the clamp threshold),
`idle.time` advances by `points * timePerPoint`, `idle.localBlockHeight`
becomes the current block height and `backoffUntil` increases by
`min(minIdle * max(1, points), maxIdle)` over the reset baseline `now`;
when no idle record exists one is created with the current time and block
height, and when the block height is unchanged `idle.time` is set to now
with no penalty. -/
theorem c2_success_idle_accounting (cfg : BackoffConfig)
    (witnesses : List String) (blockHeight : Int) (peerCount : Nat)
    (now : Int) (cursor : Option Cursor) (peer p : Peer)
    (hres : GossipPeer.success cfg witnesses blockHeight peerCount now
      false cursor peer = .updated p) :
    (peer.status.idle = none →
      p.reputation = peer.reputation ∧
      p.status.idle = some ⟨now, blockHeight⟩ ∧
      p.status.backoffUntil = now) ∧
    (∀ i : IdleInfo, peer.status.idle = some i →
      i.localBlockHeight = blockHeight →
      p.reputation = peer.reputation ∧
      p.status.idle = some ⟨now, i.localBlockHeight⟩ ∧
      p.status.backoffUntil = now) ∧
    (∀ i : IdleInfo, peer.status.idle = some i →
      i.localBlockHeight ≠ blockHeight →
      0 ≤ peer.reputation -
        (now - i.time).fdiv (jsCeilDiv cfg.maxIdleGracePeriod 100) →
      p.reputation = peer.reputation -
        (now - i.time).fdiv (jsCeilDiv cfg.maxIdleGracePeriod 100) ∧
      p.status.idle = some
        ⟨i.time + (now - i.time).fdiv (jsCeilDiv cfg.maxIdleGracePeriod 100) *
          jsCeilDiv cfg.maxIdleGracePeriod 100, blockHeight⟩ ∧
      p.status.backoffUntil = now + min
        (cfg.minIdle * max 1
          ((now - i.time).fdiv (jsCeilDiv cfg.maxIdleGracePeriod 100)))
        cfg.maxIdle) := by
  have hguard := success_updated_no_guard hres
  refine ⟨?_, ?_, ?_⟩
  · intro hidle
    rw [success_idle_start cfg witnesses blockHeight peerCount now cursor
      peer hguard hidle] at hres
    have hp := GossipResult.updated.inj hres
    subst hp
    exact ⟨rfl, rfl, rfl⟩
  · intro i hidle hbh
    rw [success_idle_everyone cfg witnesses blockHeight peerCount now cursor
      peer i hguard hidle hbh] at hres
    have hp := GossipResult.updated.inj hres
    subst hp
    exact ⟨rfl, rfl, rfl⟩
  · intro i hidle hbh h0
    rw [success_idle_penalty cfg witnesses blockHeight peerCount now cursor
      peer i hguard hidle hbh] at hres
    dsimp only at hres
    rw [if_neg (not_lt.mpr h0)] at hres
    have hp := GossipResult.updated.inj hres
    subst hp
    exact ⟨rfl, rfl, rfl⟩

/-- Witness for C2: all three idle cases at concrete inputs.  The idle
peer first seen idling at time 1000 at block height 2 is penalised 4
points at time 5000 once the local height reaches 3. -/
theorem c2_success_idle_accounting_witness :
    ((⟨"p1", 50, false, ⟨5000, 5000, 0, "success", none, 0, 0, none,
        some ⟨5000, 3⟩⟩, 1⟩ : Peer).reputation = 50 ∧
     (⟨"p1", 50, false, ⟨5000, 5000, 0, "success", none, 0, 0, none,
        some ⟨5000, 3⟩⟩, 1⟩ : Peer).status.idle = some ⟨5000, 3⟩ ∧
     (⟨"p1", 50, false, ⟨5000, 5000, 0, "success", none, 0, 0, none,
        some ⟨5000, 3⟩⟩, 1⟩ : Peer).status.backoffUntil = 5000) ∧
    ((⟨"p1", 50, false, ⟨5000, 5000, 0, "success", none, 0, 0, none,
        some ⟨5000, 2⟩⟩, 1⟩ : Peer).reputation = 50 ∧
     (⟨"p1", 50, false, ⟨5000, 5000, 0, "success", none, 0, 0, none,
        some ⟨5000, 2⟩⟩, 1⟩ : Peer).status.idle = some ⟨5000, 2⟩) ∧
    ((⟨"p1", 46, false, ⟨25000, 5000, 0, "success", none, 0, 0, none,
        some ⟨5000, 3⟩⟩, 1⟩ : Peer).reputation = 46 ∧
     (⟨"p1", 46, false, ⟨25000, 5000, 0, "success", none, 0, 0, none,
        some ⟨5000, 3⟩⟩, 1⟩ : Peer).status.idle = some ⟨5000, 3⟩ ∧
     (⟨"p1", 46, false, ⟨25000, 5000, 0, "success", none, 0, 0, none,
        some ⟨5000, 3⟩⟩, 1⟩ : Peer).status.backoffUntil = 25000) := by
  have hstart := c2_success_idle_accounting cfgA [] 3 0 5000 none peerFresh
    ⟨"p1", 50, false, ⟨5000, 5000, 0, "success", none, 0, 0, none,
      some ⟨5000, 3⟩⟩, 1⟩ (by decide)
  have hsame := c2_success_idle_accounting cfgA [] 2 0 5000 none peerIdle
    ⟨"p1", 50, false, ⟨5000, 5000, 0, "success", none, 0, 0, none,
      some ⟨5000, 2⟩⟩, 1⟩ (by decide)
  have hpen := c2_success_idle_accounting cfgA [] 3 0 5000 none peerIdle
    ⟨"p1", 46, false, ⟨25000, 5000, 0, "success", none, 0, 0, none,
      some ⟨5000, 3⟩⟩, 1⟩ (by decide)
  refine ⟨hstart.1 rfl, ?_, ?_⟩
  · have h := hsame.2.1 ⟨1000, 2⟩ rfl rfl
    exact ⟨h.1, h.2.1⟩
  · have h := hpen.2.2 ⟨1000, 2⟩ rfl (by decide) (by decide)
    exact ⟨h.1, h.2.1, h.2.2⟩

/-- C5: whenever a reputation update during failure handling or success
(idle-penalty) handling makes the peer's reputation negative, the peer is
deleted unless it is a current witness, in which case the reputation is
set to 0 and the peer is retained. -/
theorem c5_negative_reputation_delete_or_clamp (cfg : BackoffConfig)
    (witnesses : List String) (now : Int) (error : String)
    (cursor : Option (Option Cursor)) (blockHeight : Int) (peerCount : Nat)
    (scursor : Option Cursor) (peer : Peer) :
    (peer.status.consecutiveFailures = 0 → peer.reputation - 1 < 0 →
      (witnesses.contains peer.id = false →
        GossipPeer.fail cfg witnesses now error cursor false peer =
          some .deleted) ∧
      (witnesses.contains peer.id = true →
        ∃ p, GossipPeer.fail cfg witnesses now error cursor false peer =
          some (.updated p) ∧ p.reputation = 0)) ∧
    (∀ ff : FirstFailure, peer.status.consecutiveFailures ≠ 0 →
      peer.status.firstFailure = some ff →
      min (ff.reputation - 1)
        (ff.reputation - (now - ff.time).fdiv cfg.maxFailureGracePeriod * 100) < 0 →
      (witnesses.contains peer.id = false →
        GossipPeer.fail cfg witnesses now error cursor false peer =
          some .deleted) ∧
      (witnesses.contains peer.id = true →
        ∃ p, GossipPeer.fail cfg witnesses now error cursor false peer =
          some (.updated p) ∧ p.reputation = 0)) ∧
    (∀ i : IdleInfo, peer.status.idle = some i →
      i.localBlockHeight ≠ blockHeight →
      peer.reputation -
        (now - i.time).fdiv (jsCeilDiv cfg.maxIdleGracePeriod 100) < 0 →
      (witnesses.contains peer.id = false →
        GossipPeer.success cfg witnesses blockHeight peerCount now false
          scursor peer = .deleted) ∧
      (witnesses.contains peer.id = true →
        ∃ p, GossipPeer.success cfg witnesses blockHeight peerCount now false
          scursor peer = .updated p ∧ p.reputation = 0)) := by
  refine ⟨?_, ?_, ?_⟩
  · intro h0 hneg
    rw [fail_nonfatal, failRepStep_first cfg now error peer h0]
    dsimp only
    rw [if_pos hneg]
    constructor
    · intro hw
      rw [hw]
      rfl
    · intro hw
      rw [hw]
      exact ⟨_, rfl, rfl⟩
  · intro ff hne hff hneg
    rw [fail_nonfatal, failRepStep_subsequent cfg now error peer ff hne hff]
    dsimp only
    rw [if_pos hneg]
    constructor
    · intro hw
      rw [hw]
      rfl
    · intro hw
      rw [hw]
      exact ⟨_, rfl, rfl⟩
  · intro i hidle hbh hneg
    constructor
    · intro hw
      by_cases hg : witnesses.contains peer.id = false ∧
          peer.reputation = 0 ∧ 100 ≤ peerCount
      · exact success_guard_deletes cfg witnesses blockHeight peerCount now
          false scursor peer hg.1 hg.2.1 hg.2.2
      · rw [success_idle_penalty cfg witnesses blockHeight peerCount now
          scursor peer i hg hidle hbh]
        dsimp only
        rw [if_pos hneg, hw]
        rfl
    · intro hw
      have hg : ¬(witnesses.contains peer.id = false ∧
          peer.reputation = 0 ∧ 100 ≤ peerCount) := by
        rintro ⟨h1, -, -⟩
        rw [hw] at h1
        cases h1
      rw [success_idle_penalty cfg witnesses blockHeight peerCount now
        scursor peer i hg hidle hbh]
      dsimp only
      rw [if_pos hneg, hw]
      exact ⟨_, rfl, rfl⟩

/-- Witness for C5: a non-witness peer with reputation 0 failing for the
first time is deleted; the same peer as a current witness is retained
with reputation clamped to 0. -/
theorem c5_negative_reputation_delete_or_clamp_witness :
    GossipPeer.fail cfgA [] 5000 "err" none false
      ⟨"p1", 0, false, ⟨0, 0, 0, "", none, 0, 0, none, none⟩, 0⟩ =
      some .deleted ∧
    (∃ p, GossipPeer.fail cfgA ["p1"] 5000 "err" none false
      ⟨"p1", 0, false, ⟨0, 0, 0, "", none, 0, 0, none, none⟩, 0⟩ =
      some (.updated p) ∧ p.reputation = 0) := by
  have hdel := c5_negative_reputation_delete_or_clamp cfgA [] 5000 "err"
    none 0 0 none ⟨"p1", 0, false, ⟨0, 0, 0, "", none, 0, 0, none, none⟩, 0⟩
  have hclamp := c5_negative_reputation_delete_or_clamp cfgA ["p1"] 5000
    "err" none 0 0 none
    ⟨"p1", 0, false, ⟨0, 0, 0, "", none, 0, 0, none, none⟩, 0⟩
  exact ⟨(hdel.1 rfl (by decide)).1 rfl, (hclamp.1 rfl (by decide)).2 rfl⟩

/-- C3: for every stored peer, `0 ≤ reputation ≤ 100` is preserved: no
call to `fail` or `success` leaves a retained (non-deleted) peer record
with reputation below 0 or above 100.  The hypotheses are the reachable-
state invariants of a stored record: bounded reputation, a
`firstFailure` snapshot of a then-valid reputation, an idle timestamp not
in the future, and a non-negative configured grace period. -/
theorem c3_reputation_bounded (cfg : BackoffConfig) (witnesses : List String)
    (now : Int) (error : String) (cursor : Option (Option Cursor))
    (fatal : Bool) (blockHeight : Int) (peerCount : Nat)
    (mergeEventsReceived : Bool) (scursor : Option Cursor) (peer p q : Peer)
    (hlo : 0 ≤ peer.reputation) (hhi : peer.reputation ≤ 100)
    (hsnap : ∀ ff : FirstFailure, peer.status.firstFailure = some ff →
      ff.reputation ≤ 100)
    (hclock : ∀ i : IdleInfo, peer.status.idle = some i → i.time ≤ now)
    (hgrace : 0 ≤ cfg.maxIdleGracePeriod) :
    (GossipPeer.fail cfg witnesses now error cursor fatal peer =
        some (.updated p) →
      0 ≤ p.reputation ∧ p.reputation ≤ 100) ∧
    (GossipPeer.success cfg witnesses blockHeight peerCount now
        mergeEventsReceived scursor peer = .updated q →
      0 ≤ q.reputation ∧ q.reputation ≤ 100) := by
  constructor
  · intro hres
    cases fatal
    · obtain ⟨rep, status2, hstep, hp, -⟩ := fail_updated_cases hres
      subst hp
      show 0 ≤ (if rep < 0 then 0 else rep) ∧ (if rep < 0 then 0 else rep) ≤ 100
      have hrep100 : rep ≤ 100 := by
        by_cases h0 : peer.status.consecutiveFailures = 0
        · rw [failRepStep_first cfg now error peer h0] at hstep
          rw [Option.some.injEq, Prod.mk.injEq] at hstep
          omega
        · rcases hffo : peer.status.firstFailure with _ | ff
          · rw [failRepStep_throw cfg now error peer h0 hffo] at hstep
            exact absurd hstep (by simp)
          · rw [failRepStep_subsequent cfg now error peer ff h0 hffo] at hstep
            rw [Option.some.injEq, Prod.mk.injEq] at hstep
            obtain ⟨hrep, -⟩ := hstep
            have h1 := min_le_left (ff.reputation - 1)
              (ff.reputation - (now - ff.time).fdiv cfg.maxFailureGracePeriod * 100)
            rw [hrep] at h1
            have h2 := hsnap ff hffo
            omega
      by_cases hneg : rep < 0
      · rw [if_pos hneg]
        norm_num
      · rw [if_neg hneg]
        omega
    · exact absurd hres (by simp [GossipPeer.fail])
  · intro hres
    have hguard := success_updated_no_guard hres
    cases mergeEventsReceived
    · rcases hidle : peer.status.idle with _ | i
      · rw [success_idle_start cfg witnesses blockHeight peerCount now
          scursor peer hguard hidle] at hres
        have hq := GossipResult.updated.inj hres
        subst hq
        exact ⟨hlo, hhi⟩
      · by_cases hbh : i.localBlockHeight = blockHeight
        · rw [success_idle_everyone cfg witnesses blockHeight peerCount now
            scursor peer i hguard hidle hbh] at hres
          have hq := GossipResult.updated.inj hres
          subst hq
          exact ⟨hlo, hhi⟩
        · rw [success_idle_penalty cfg witnesses blockHeight peerCount now
            scursor peer i hguard hidle hbh] at hres
          dsimp only at hres
          have hpoints : 0 ≤ (now - i.time).fdiv (jsCeilDiv cfg.maxIdleGracePeriod 100) :=
            Int.fdiv_nonneg (by have := hclock i hidle; omega)
              (jsCeilDiv_nonneg hgrace (by norm_num))
          by_cases hneg : peer.reputation -
              (now - i.time).fdiv (jsCeilDiv cfg.maxIdleGracePeriod 100) < 0
          · rw [if_pos hneg] at hres
            cases hw : witnesses.contains peer.id
            · rw [hw] at hres
              exact absurd hres (by simp)
            · rw [hw, if_pos rfl] at hres
              have hq := GossipResult.updated.inj hres
              subst hq
              norm_num
          · rw [if_neg hneg] at hres
            have hq := GossipResult.updated.inj hres
            subst hq
            show 0 ≤ peer.reputation -
                (now - i.time).fdiv (jsCeilDiv cfg.maxIdleGracePeriod 100) ∧
              peer.reputation -
                (now - i.time).fdiv (jsCeilDiv cfg.maxIdleGracePeriod 100) ≤ 100
            omega
    · rw [success_merge cfg witnesses blockHeight peerCount now scursor peer
        hguard] at hres
      have hq := GossipResult.updated.inj hres
      subst hq
      show 0 ≤ min 100 (peer.reputation + 1) ∧ min 100 (peer.reputation + 1) ≤ 100
      constructor
      · exact le_min (by norm_num) (by omega)
      · exact min_le_left _ _

/-- Witness for C3: the fresh reputation-50 peer after a first failure and
after a merge-rewarding success. -/
theorem c3_reputation_bounded_witness :
    (0 ≤ (⟨"p1", 49, false, ⟨15000, 5000, 0, "err", none, 0, 1,
        some ⟨50, 5000⟩, none⟩, 1⟩ : Peer).reputation ∧
     (⟨"p1", 49, false, ⟨15000, 5000, 0, "err", none, 0, 1,
        some ⟨50, 5000⟩, none⟩, 1⟩ : Peer).reputation ≤ 100) ∧
    (0 ≤ (⟨"p1", 51, false, ⟨5000, 5000, 0, "success", none, 0, 0, none,
        none⟩, 1⟩ : Peer).reputation ∧
     (⟨"p1", 51, false, ⟨5000, 5000, 0, "success", none, 0, 0, none,
        none⟩, 1⟩ : Peer).reputation ≤ 100) := by
  have h := c3_reputation_bounded cfgA [] 5000 "err" none false 3 0 true
    none peerFresh
    ⟨"p1", 49, false, ⟨15000, 5000, 0, "err", none, 0, 1,
      some ⟨50, 5000⟩, none⟩, 1⟩
    ⟨"p1", 51, false, ⟨5000, 5000, 0, "success", none, 0, 0, none, none⟩, 1⟩
    (by decide) (by decide) (fun ff hff => nomatch hff)
    (fun i hi => nomatch hi) (by decide)
  exact ⟨h.1 (by decide), h.2 (by decide)⟩

theorem zeroRepCount_cons (r : Int) (rest : List Int) :
    zeroRepCount (r :: rest) = (if r ≤ 0 then 1 else 0) + zeroRepCount rest := by
  unfold zeroRepCount
  rw [List.filter_cons]
  by_cases h : r ≤ 0
  · simp [h]
    omega
  · simp [h]

/-- C4 counterexample: a stored population satisfying
`count(maxReputation=0) ≤ 100` (one reputation-1 peer plus one hundred
reputation-0 peers) in which a success with no merge events for the
reputation-1 peer, idle since time 1000 at block height 2 while the local
height reached 3 by time 2500, commits the peer with reputation 0 and
leaves 101 stored peers of reputation at most 0. -/
theorem c4_peer_capacity_counterexample :
    zeroRepCount ((1 : Int) :: List.replicate 100 0) ≤ 100 ∧
    successCommitZeroCount cfgA [] 3 2500 false none (List.replicate 100 0)
      ⟨"p1", 1, false, ⟨0, 0, 0, "", none, 0, 0, none, some ⟨1000, 2⟩⟩, 0⟩ =
      101 := by
  constructor
  · decide
  · decide

/-- C4 (amended): on a successful gossip with a non-witness peer whose
reputation is exactly 0, if the stored count of peers with reputation at
most 0 is at least 100, the peer is deleted before any status or
reputation update; consequently a success handled for a non-witness peer
that enters with reputation 0 never increases `count(maxReputation=0)`.
The bound `count(maxReputation=0) ≤ 100` is, however, not preserved by
every success commit: the idle penalty can reduce a positive-reputation
peer to exactly 0 without any capacity check (see the counterexample). -/
theorem c4_peer_capacity_amended (cfg : BackoffConfig)
    (witnesses : List String) (blockHeight : Int) (now : Int)
    (mergeEventsReceived : Bool) (cursor : Option Cursor)
    (others : List Int) (peer : Peer)
    (hw : witnesses.contains peer.id = false) (h0 : peer.reputation = 0) :
    (100 ≤ zeroRepCount (peer.reputation :: others) →
      GossipPeer.success cfg witnesses blockHeight
        (zeroRepCount (peer.reputation :: others)) now mergeEventsReceived
        cursor peer = .deleted) ∧
    successCommitZeroCount cfg witnesses blockHeight now mergeEventsReceived
      cursor others peer ≤ zeroRepCount (peer.reputation :: others) := by
  constructor
  · intro hc
    exact success_guard_deletes cfg witnesses blockHeight
      (zeroRepCount (peer.reputation :: others)) now mergeEventsReceived
      cursor peer hw h0 hc
  · dsimp only [successCommitZeroCount]
    rcases hm : GossipPeer.success cfg witnesses blockHeight
        (zeroRepCount (peer.reputation :: others)) now mergeEventsReceived
        cursor peer with _ | pp
    · show zeroRepCount others ≤ zeroRepCount (peer.reputation :: others)
      rw [zeroRepCount_cons]
      omega
    · show zeroRepCount (pp.reputation :: others) ≤
        zeroRepCount (peer.reputation :: others)
      rw [zeroRepCount_cons, zeroRepCount_cons, h0]
      have h1 : ((if (0 : Int) ≤ 0 then 1 else 0) : Nat) = 1 := rfl
      rw [h1]
      by_cases hpp : pp.reputation ≤ 0
      · rw [if_pos hpp]
      · rw [if_neg hpp]
        omega

/-- Witness for C4 (amended): the capacity check fires for a non-witness
reputation-0 peer among one hundred other zero-reputation peers, and such
a success never raises the zero-reputation count above its entry value
of 101. -/
theorem c4_peer_capacity_amended_witness :
    GossipPeer.success cfgA [] 3
      (zeroRepCount ((0 : Int) :: List.replicate 100 0)) 2500 false none
      ⟨"p1", 0, false, ⟨0, 0, 0, "", none, 0, 0, none, some ⟨1000, 2⟩⟩, 0⟩ =
      .deleted ∧
    successCommitZeroCount cfgA [] 3 2500 false none (List.replicate 100 0)
      ⟨"p1", 0, false, ⟨0, 0, 0, "", none, 0, 0, none, some ⟨1000, 2⟩⟩, 0⟩ ≤
      101 := by
  have h := c4_peer_capacity_amended cfgA [] 3 2500 false none
    (List.replicate 100 0)
    ⟨"p1", 0, false, ⟨0, 0, 0, "", none, 0, 0, none, some ⟨1000, 2⟩⟩, 0⟩
    rfl rfl
  exact ⟨h.1 (by decide), h.2⟩

/-- C8 counterexample: a success with no merge events for a peer idle
since time 1000 at block height 2, handled at time 5000 with local block
height 3, retains the peer but commits `backoffUntil = 25000`, not the
current time 5000 — the idle penalty adds
`min(minIdle * max(1, points), maxIdle)` on top of the reset baseline. -/
theorem c8_success_resets_counterexample :
    GossipPeer.success cfgA [] 3 0 5000 false none peerIdle =
      .updated ⟨"p1", 46, false, ⟨25000, 5000, 0, "success", none, 0, 0,
        none, some ⟨5000, 3⟩⟩, 1⟩ ∧
    (⟨"p1", 46, false, ⟨25000, 5000, 0, "success", none, 0, 0,
        none, some ⟨5000, 3⟩⟩, 1⟩ : Peer).status.backoffUntil ≠ 5000 := by
  constructor
  · decide
  · decide

/-- C8 (amended): every `success` that does not delete the peer resets
`consecutiveFailures` to 0, sets `lastPullAt` to the current time, sets
`lastPullResult` to "success", stores the supplied cursor (updating
`requiredBlockHeight` exactly when the cursor is truthy), and, if merge
events were received, sets the reputation to `min(100, reputation + 1)`
and clears the idle record; `backoffUntil` is set to the current time in
every case except when the idle penalty fires (no merge events, an idle
record exists and the block height changed), in which case it is the
current time plus `min(minIdle * max(1, points), maxIdle)`. -/
theorem c8_success_resets_amended (cfg : BackoffConfig)
    (witnesses : List String) (blockHeight : Int) (peerCount : Nat)
    (now : Int) (mergeEventsReceived : Bool) (cursor : Option Cursor)
    (peer p : Peer)
    (hres : GossipPeer.success cfg witnesses blockHeight peerCount now
      mergeEventsReceived cursor peer = .updated p) :
    p.status.consecutiveFailures = 0 ∧
    p.status.lastPullAt = now ∧
    p.status.lastPullResult = "success" ∧
    p.status.cursor = cursor ∧
    (∀ c : Cursor, cursor = some c →
      p.status.requiredBlockHeight = c.requiredBlockHeight) ∧
    (cursor = none →
      p.status.requiredBlockHeight = peer.status.requiredBlockHeight) ∧
    (mergeEventsReceived = true →
      p.reputation = min 100 (peer.reputation + 1) ∧
      p.status.idle = none ∧
      p.status.backoffUntil = now) ∧
    (mergeEventsReceived = false → peer.status.idle = none →
      p.status.backoffUntil = now) ∧
    (∀ i : IdleInfo, mergeEventsReceived = false →
      peer.status.idle = some i → i.localBlockHeight = blockHeight →
      p.status.backoffUntil = now) ∧
    (∀ i : IdleInfo, mergeEventsReceived = false →
      peer.status.idle = some i → i.localBlockHeight ≠ blockHeight →
      p.status.backoffUntil = now + min
        (cfg.minIdle * max 1
          ((now - i.time).fdiv (jsCeilDiv cfg.maxIdleGracePeriod 100)))
        cfg.maxIdle) := by
  have hguard := success_updated_no_guard hres
  cases mergeEventsReceived
  · rcases hidle : peer.status.idle with _ | i0
    · rw [success_idle_start cfg witnesses blockHeight peerCount now
        cursor peer hguard hidle] at hres
      have hp := GossipResult.updated.inj hres
      subst hp
      refine ⟨rfl, rfl, rfl, rfl, ?_, ?_, ?_, ?_, ?_, ?_⟩
      · intro c hc
        subst hc
        rfl
      · intro hc
        subst hc
        rfl
      · intro h
        nomatch h
      · intro _ _
        rfl
      · intro i _ hi
        nomatch hi
      · intro i _ hi
        nomatch hi
    · by_cases hbh : i0.localBlockHeight = blockHeight
      · rw [success_idle_everyone cfg witnesses blockHeight peerCount now
          cursor peer i0 hguard hidle hbh] at hres
        have hp := GossipResult.updated.inj hres
        subst hp
        refine ⟨rfl, rfl, rfl, rfl, ?_, ?_, ?_, ?_, ?_, ?_⟩
        · intro c hc
          subst hc
          rfl
        · intro hc
          subst hc
          rfl
        · intro h
          nomatch h
        · intro _ hnone
          nomatch hnone
        · intro i _ _ _
          rfl
        · intro i _ hi hbh'
          obtain rfl := Option.some.inj hi
          exact absurd hbh hbh'
      · rw [success_idle_penalty cfg witnesses blockHeight peerCount now
          cursor peer i0 hguard hidle hbh] at hres
        dsimp only at hres
        by_cases hneg : peer.reputation -
            (now - i0.time).fdiv (jsCeilDiv cfg.maxIdleGracePeriod 100) < 0
        · rw [if_pos hneg] at hres
          cases hw : witnesses.contains peer.id
          · rw [hw] at hres
            exact absurd hres (by simp)
          · rw [hw, if_pos rfl] at hres
            have hp := GossipResult.updated.inj hres
            subst hp
            refine ⟨rfl, rfl, rfl, rfl, ?_, ?_, ?_, ?_, ?_, ?_⟩
            · intro c hc
              subst hc
              rfl
            · intro hc
              subst hc
              rfl
            · intro h
              nomatch h
            · intro _ hnone
              nomatch hnone
            · intro i _ hi hbh'
              obtain rfl := Option.some.inj hi
              exact absurd hbh' hbh
            · intro i _ hi _
              obtain rfl := Option.some.inj hi
              rfl
        · rw [if_neg hneg] at hres
          have hp := GossipResult.updated.inj hres
          subst hp
          refine ⟨rfl, rfl, rfl, rfl, ?_, ?_, ?_, ?_, ?_, ?_⟩
          · intro c hc
            subst hc
            rfl
          · intro hc
            subst hc
            rfl
          · intro h
            nomatch h
          · intro _ hnone
            nomatch hnone
          · intro i _ hi hbh'
            obtain rfl := Option.some.inj hi
            exact absurd hbh' hbh
          · intro i _ hi _
            obtain rfl := Option.some.inj hi
            rfl
  · rw [success_merge cfg witnesses blockHeight peerCount now cursor peer
      hguard] at hres
    have hp := GossipResult.updated.inj hres
    subst hp
    refine ⟨rfl, rfl, rfl, rfl, ?_, ?_, ?_, ?_, ?_, ?_⟩
    · intro c hc
      subst hc
      rfl
    · intro hc
      subst hc
      rfl
    · intro _
      exact ⟨rfl, rfl, rfl⟩
    · intro h
      nomatch h
    · intro i h
      nomatch h
    · intro i h
      nomatch h

/-- Witness for C8 (amended): a merge-rewarding success at time 5000 and
the penalised idle success at time 5000. -/
theorem c8_success_resets_amended_witness :
    ((⟨"p1", 51, false, ⟨5000, 5000, 0, "success", none, 0, 0, none,
        none⟩, 1⟩ : Peer).status.consecutiveFailures = 0 ∧
     (⟨"p1", 51, false, ⟨5000, 5000, 0, "success", none, 0, 0, none,
        none⟩, 1⟩ : Peer).status.lastPullResult = "success" ∧
     (⟨"p1", 51, false, ⟨5000, 5000, 0, "success", none, 0, 0, none,
        none⟩, 1⟩ : Peer).reputation = min 100 (peerFresh.reputation + 1) ∧
     (⟨"p1", 51, false, ⟨5000, 5000, 0, "success", none, 0, 0, none,
        none⟩, 1⟩ : Peer).status.backoffUntil = 5000) ∧
    (⟨"p1", 46, false, ⟨25000, 5000, 0, "success", none, 0, 0, none,
        some ⟨5000, 3⟩⟩, 1⟩ : Peer).status.backoffUntil =
      5000 + min
        (cfgA.minIdle * max 1
          (((5000 : Int) - 1000).fdiv (jsCeilDiv cfgA.maxIdleGracePeriod 100)))
        cfgA.maxIdle := by
  have hm := c8_success_resets_amended cfgA [] 3 0 5000 true none peerFresh
    ⟨"p1", 51, false, ⟨5000, 5000, 0, "success", none, 0, 0, none, none⟩, 1⟩
    (by decide)
  have hp := c8_success_resets_amended cfgA [] 3 0 5000 false none peerIdle
    ⟨"p1", 46, false, ⟨25000, 5000, 0, "success", none, 0, 0, none,
      some ⟨5000, 3⟩⟩, 1⟩ (by decide)
  obtain ⟨hrep, -, hback⟩ := hm.2.2.2.2.2.2.1 rfl
  exact ⟨⟨hm.1, hm.2.2.1, hrep, hback⟩,
    hp.2.2.2.2.2.2.2.2.2 ⟨1000, 2⟩ rfl rfl (by decide)⟩
